import Mathlib

/-!
Verification of the core of `flexlm_analysis.py`: the line-reading state
machine (`read_files`), the deduplication filter (`deduplicate`), the summary
statistics fold (`do_some_stats`) and the time-series fold
(`do_gnuplot_stats`).  Each Lean definition below is a shallow embedding of
the Python function of the same name; Python's machine-independent integers
are modelled as `Int`, Python's mutable `set` of strings as a duplicate-free
`List String` (the source only ever inserts a key that is absent and removes
a key that is present, so every reachable state is duplicate-free and list
operations agree with set operations), and Python dictionaries with
lazily-created entries as total functions that default to the entry created
on first access.
-/

/-- One parsed log event, the tuple
`(date, time, state, module, user, machine)` appended to `result_list` by
`read_files` in the source. -/
structure Event where
  date : String
  time : String
  state : String
  module : String
  user : String
  machine : String
deriving DecidableEq, Repr

/-- Python's `str.lower()` as used on state keywords, modelled char-wise
(the states matched by the event pattern are ASCII words, on which this
agrees with Python). -/
def py_lower (s : String) : String :=
  ⟨s.data.map Char.toLower⟩

/-- The deduplication key `module + ":" + user + "@" + machine` built at the
top of the source's `deduplicate`. -/
def dedup_key (module user machine : String) : String :=
  module ++ ":" ++ user ++ "@" ++ machine

/-- The key of an event. -/
def keyOf (e : Event) : String :=
  dedup_key e.module e.user e.machine

/-- `deduplicate(stats_dedup, state, module, user, machine)` from the source:
returns `true` when the event must be dropped, together with the updated
dedup set.  A checkout whose key is already open is dropped; a checkout with
a fresh key inserts the key; a checkin whose key is open removes it; a
checkin with no open key is dropped; any other state falls through to
`return False` with the set unchanged. -/
def deduplicate (stats_dedup : List String) (state module user machine : String) :
    Bool × List String :=
  let module_user_machine := dedup_key module user machine
  if py_lower state = "out" then
    if module_user_machine ∈ stats_dedup then (true, stats_dedup)
    else (false, module_user_machine :: stats_dedup)
  else if py_lower state = "in" then
    if module_user_machine ∈ stats_dedup then
      (false, stats_dedup.erase module_user_machine)
    else (true, stats_dedup)
  else (false, stats_dedup)

/-- `count_users_upon_state(state, nb_users, total_use)` from the source. -/
def count_users_upon_state (state : String) (nb_users total_use : Int) :
    Int × Int :=
  if py_lower state = "out" then (nb_users + 1, total_use + 1)
  else if py_lower state = "in" then (nb_users - 1, total_use)
  else (nb_users, total_use)

/-- `get_min_max_users(nb_users, min_users, max_users, date, max_day)` from
the source; returns `(min_users, max_users, max_day)`. -/
def get_min_max_users (nb_users min_users max_users : Int)
    (date max_day : String) : Int × Int × String :=
  let p := if nb_users > 0 ∧ nb_users > max_users then (nb_users, date)
           else (max_users, max_day)
  let mn := if nb_users ≥ 0 ∧ nb_users < min_users then nb_users else min_users
  (mn, p.1, p.2)

/-- The per-module statistics tuple
`(max_users, min_users, max_day, nb_users, total_use, nb_days, old_date)`
stored in the `stats` dictionary of `do_some_stats`. -/
structure ModStats where
  max_users : Int
  min_users : Int
  max_day : String
  nb_users : Int
  total_use : Int
  nb_days : Int
  old_date : String
deriving DecidableEq, Repr

/-- The tuple `(0, 999999999999, '', 0, 0, 0, 'XXXXXXX')` that
`get_stats_from_module` installs for a module seen for the first time. -/
def init_module_stats : ModStats :=
  ⟨0, 999999999999, "", 0, 0, 0, "XXXXXXX"⟩

/-- The dictionary state of `do_some_stats`: the `stats` dictionary (total
function defaulting to the lazily-created initial tuple, mirroring
`get_stats_from_module`) and the `module_list`. -/
structure StatsCore where
  stats : String → ModStats
  module_list : List String

/-- Initial `stats` / `module_list` state of `do_some_stats`. -/
def init_stats_core : StatsCore :=
  ⟨fun _ => init_module_stats, []⟩

/-- The body of the `do_some_stats` loop applied to one event that survived
deduplication (lines 244-255 of the source): fetch the module's tuple,
update `nb_days` / `old_date` when an OUT event carries a new date, apply
`count_users_upon_state` and `get_min_max_users`, and store the new tuple. -/
def stats_update (c : StatsCore) (e : Event) : StatsCore :=
  let module_list :=
    if e.module ∈ c.module_list then c.module_list
    else c.module_list ++ [e.module]
  let s := c.stats e.module
  let nd :=
    if e.date ≠ s.old_date ∧ py_lower e.state = "out" then (s.nb_days + 1, e.date)
    else (s.nb_days, s.old_date)
  let cu := count_users_upon_state e.state s.nb_users s.total_use
  let mm := get_min_max_users cu.1 s.min_users s.max_users e.date s.max_day
  { stats := fun m =>
      if m = e.module then ⟨mm.2.1, mm.1, mm.2.2, cu.1, cu.2, nd.1, nd.2⟩
      else c.stats m
    module_list := module_list }

/-- The `do_some_stats` loop: each event first passes `deduplicate` (the
`continue` on a drop), then `stats_update`. -/
def do_some_stats_loop (c : StatsCore) (d : List String) :
    List Event → StatsCore
  | [] => c
  | e :: rest =>
    let r := deduplicate d e.state e.module e.user e.machine
    if r.1 then do_some_stats_loop c r.2 rest
    else do_some_stats_loop (stats_update c e) r.2 rest

/-- `do_some_stats(result_list)` from the source (the returned `module_list`
is the `module_list` field of the result). -/
def do_some_stats (result_list : List Event) : StatsCore :=
  do_some_stats_loop init_stats_core [] result_list

/-- `init_use_upon_state(state)` from the source.  Note the source's `elif`
compares the uncalled method object `state.lower` with the string `'in'`,
which is always false in Python, so that branch never fires; since `use` is
initialised to `0` the function returns `1` for an OUT state and `0`
otherwise. -/
def init_use_upon_state (state : String) : Int :=
  let use : Int := 0
  if py_lower state = "out" then 1
  else if false then 0
  else use

/-- `update_use_value_upon_state(state, use)` from the source. -/
def update_use_value_upon_state (state : String) (use : Int) : Int :=
  if py_lower state = "out" then use + 1
  else if py_lower state = "in" then use - 1
  else use

/-- The dictionary state of `do_gnuplot_stats`: per-module event lists of
`(date, time, use)` triples, most recent first (the source prepends), plus
the `module_list`. -/
structure GnuplotCore where
  stats : String → List (String × String × Int)
  module_list : List String

/-- Initial state of `do_gnuplot_stats`. -/
def init_gnuplot_core : GnuplotCore :=
  ⟨fun _ => [], []⟩

/-- The body of the `do_gnuplot_stats` loop applied to one event that
survived deduplication: initialise `use` on the module's first event, update
it otherwise, and prepend the `(date, time, use)` triple. -/
def gnuplot_update (g : GnuplotCore) (e : Event) : GnuplotCore :=
  let module_list :=
    if e.module ∈ g.module_list then g.module_list
    else g.module_list ++ [e.module]
  let event_list := g.stats e.module
  let use :=
    match event_list with
    | [] => init_use_upon_state e.state
    | (_, _, u) :: _ => update_use_value_upon_state e.state u
  { stats := fun m =>
      if m = e.module then (e.date, e.time, use) :: event_list
      else g.stats m
    module_list := module_list }

/-- The `do_gnuplot_stats` loop, with the same deduplication guard as the
stats loop. -/
def do_gnuplot_loop (g : GnuplotCore) (d : List String) :
    List Event → GnuplotCore
  | [] => g
  | e :: rest =>
    let r := deduplicate d e.state e.module e.user e.machine
    if r.1 then do_gnuplot_loop g r.2 rest
    else do_gnuplot_loop (gnuplot_update g e) r.2 rest

/-- `do_gnuplot_stats(result_list)` from the source. -/
def do_gnuplot_stats (result_list : List Event) : GnuplotCore :=
  do_gnuplot_loop init_gnuplot_core [] result_list

/-- The running concurrency recorded at the head of a module's prepended
event list: the `use` value of the most recent entry, `0` when the list is
empty (before any event the module has no open seats). -/
def currentUse : List (String × String × Int) → Int
  | [] => 0
  | (_, _, u) :: _ => u

/-- The deduplicated subsequence of an event stream starting from dedup set
`d`: exactly the events the source's two loops process past the
`deduplicate` guard, in order. -/
def accepted_from (d : List String) : List Event → List Event
  | [] => []
  | e :: rest =>
    let r := deduplicate d e.state e.module e.user e.machine
    if r.1 then accepted_from r.2 rest
    else e :: accepted_from r.2 rest

/-- The deduplicated stream from the empty dedup set, as both loops build
it. -/
def accepted_events (evs : List Event) : List Event :=
  accepted_from [] evs

/-- The dedup set after a stream has been processed from set `d`. -/
def dedup_after (d : List String) : List Event → List String
  | [] => d
  | e :: rest =>
    dedup_after (deduplicate d e.state e.module e.user e.machine).2 rest

/-- The collision-freedom hypothesis on a stream: equal dedup keys come from
events of the same module.  (The source's string-concatenated key can
collide across modules, e.g. `x:u@a:v@b` parses both as module `x` and as
module `x:u@a`.) -/
def key_consistent (evs : List Event) : Prop :=
  ∀ e1 ∈ evs, ∀ e2 ∈ evs, keyOf e1 = keyOf e2 → e1.module = e2.module

instance key_consistent_decidable (evs : List Event) :
    Decidable (key_consistent evs) := by
  unfold key_consistent
  infer_instance

/-- Events of the stream that are checkouts of module `m`. -/
def outsFor (m : String) (l : List Event) : List Event :=
  l.filter (fun e => e.module = m ∧ py_lower e.state = "out")

/-- Events of the stream that are checkins of module `m`. -/
def insFor (m : String) (l : List Event) : List Event :=
  l.filter (fun e => e.module = m ∧ py_lower e.state = "in")

/-- Number of checkouts of module `m` in the stream, as an `Int`. -/
def countOuts (m : String) (l : List Event) : Int :=
  ((outsFor m l).length : Int)

/-- Number of checkins of module `m` in the stream, as an `Int`. -/
def countIns (m : String) (l : List Event) : Int :=
  ((insFor m l).length : Int)

/-- Dates of the accepted checkouts of module `m`, in stream order. -/
def outDates (m : String) (l : List Event) : List String :=
  (outsFor m l).map Event.date

/-- Number of positions at which a date sequence differs from its
predecessor, the predecessor of the first element being `prev`.  This is how
`do_some_stats` advances `nb_days` along a module's accepted checkouts. -/
def chainCount (prev : String) : List String → Int
  | [] => 0
  | d :: rest => if d = prev then chainCount prev rest else 1 + chainCount d rest

/-- Last element of a date sequence, `prev` when it is empty: the value the
`old_date` slot holds after the fold. -/
def lastOr (prev : String) : List String → String
  | [] => prev
  | d :: rest => lastOr d rest

/-- One input line of `read_files`, represented by its match results against
the three regular expressions the source tries: the start-date pattern
(groups `(M, D, Y)` of the trailing parenthesised date), the event pattern
(groups `(time, state, module, user, machine)`), and the `TIMESTAMP`
pattern (groups `(M, D, Y)`).  The source tries the start-date pattern on
every line while no start date has matched yet, then the event pattern, and
the timestamp pattern only when the event pattern failed. -/
structure Line where
  startRes : Option (String × String × String)
  eventRes : Option (String × String × String × String × String)
  tsRes : Option (String × String × String)
deriving DecidableEq, Repr

/-- The `'%s/%s/%s' % (year, month, day)` reformatting of a matched
`M/D/Y` date used by `read_files`. -/
def format_date (m d y : String) : String :=
  y ++ "/" ++ m ++ "/" ++ d

/-- The mutable state of `read_files`: the accumulated `result_list` and
`nb_days` and the flag `date_matched` live across the whole run, while
`date` and `old_date` are (re)initialised at the top of each file's loop. -/
structure ReadAcc where
  result_list : List Event
  nb_days : Int
  date_matched : Bool
  date : String
  old_date : String
deriving DecidableEq, Repr

/-- The start-date bootstrap step at the top of the per-line processing of
`read_files`: while `date_matched` is false, a line matching the start-date
pattern sets `date` and raises the flag. -/
def boot_line (acc : ReadAcc) (line : Line) : ReadAcc :=
  if acc.date_matched = false then
    match line.startRes with
    | some (m, d, y) =>
      { acc with date := format_date m d y, date_matched := true }
    | none => acc
  else acc

/-- Processing of one line inside `read_files`: the start-date bootstrap,
then the event pattern (appending a tuple stamped with the current `date`),
else the timestamp pattern (always reassigning `date`, and bumping
`nb_days` and `old_date` exactly when the new date differs from
`old_date`). -/
def read_line (acc : ReadAcc) (line : Line) : ReadAcc :=
  let acc := boot_line acc line
  match line.eventRes with
  | some (time, state, module, user, machine) =>
    { acc with result_list :=
        acc.result_list ++ [⟨acc.date, time, state, module, user, machine⟩] }
  | none =>
    match line.tsRes with
    | some (m, d, y) =>
      let date := format_date m d y
      if date ≠ acc.old_date then
        { acc with date := date, nb_days := acc.nb_days + 1, old_date := date }
      else { acc with date := date }
    | none => acc

/-- Processing of one file inside `read_files`: `date` is reset to the
unknown-date sentinel and `old_date` to the empty string at the top of the
per-file loop, then every line is processed. -/
def read_file (acc : ReadAcc) (lines : List Line) : ReadAcc :=
  lines.foldl read_line { acc with date := "??/??/????", old_date := "" }

/-- `read_files(files)` from the source: fold `read_file` over the files
starting from an empty result list, `nb_days = 0` and `date_matched`
false, and return `(nb_days, result_list)`. -/
def read_files (files : List (List Line)) : Int × List Event :=
  let acc := files.foldl read_file ⟨[], 0, false, "??/??/????", ""⟩
  (acc.nb_days, acc.result_list)

/-- The three things `main` can do after parsing. -/
inductive MainAction where
  | doNothing
  | doStat
  | doGnuplot
deriving DecidableEq, Repr

/-- The dispatch logic of `main`: outputs are produced only when more than
one event was parsed; stats mode prints stats; gnuplot mode additionally
requires `nb_days > 0`; otherwise nothing happens (no error is raised). -/
def main_dispatch (out : String) (nb_days : Int) (result_list : List Event) :
    MainAction :=
  if result_list.length > 1 then
    if out = "stat" then MainAction.doStat
    else if out = "gnuplot" ∧ nb_days > 0 then MainAction.doGnuplot
    else MainAction.doNothing
  else MainAction.doNothing

/-! ### Derived definitions used by the statements and proofs -/

/-- The `use` value the time-series fold attaches to an accepted event. -/
def next_use (l : List (String × String × Int)) (state : String) : Int :=
  match l with
  | [] => init_use_upon_state state
  | (_, _, u) :: _ => update_use_value_upon_state state u

/-- Number of open pairs (module, dedup key) that belong to module `m`. -/
def openCount (os : List (String × String)) (m : String) : Int :=
  ((os.filter (fun p => p.1 = m)).length : Int)

/-- Two `read_files` states that differ only in already-accumulated results:
same `date`, `old_date` and `date_matched`, result lists extending the
respective bases `r`, `r'` by one common suffix, and day counters exceeding
the respective bases `n`, `n'` by one common delta. -/
def FrameRel (r r' : List Event) (n n' : Int) (s s' : ReadAcc) : Prop :=
  s.date = s'.date ∧ s.old_date = s'.old_date
    ∧ s.date_matched = s'.date_matched
    ∧ ∃ (new : List Event) (dn : Int),
        s.result_list = r ++ new ∧ s'.result_list = r' ++ new
          ∧ s.nb_days = n + dn ∧ s'.nb_days = n' + dn

/-- The (date, time) stamp of an event. -/
def evPair (e : Event) : String × String :=
  (e.date, e.time)

/-- The (date, time) stamp of a time-series entry. -/
def entryPair (t : String × String × Int) : String × String :=
  (t.1, t.2.1)

/-- Events of the stream that belong to module `m`. -/
def eventsFor (m : String) (l : List Event) : List Event :=
  l.filter (fun e => e.module = m)

/-- Number of distinct dates carrying a checkout of module `m` (the reading
the specification gives of `daysUsed`). -/
def distinctOutDates (m : String) (l : List Event) : Nat :=
  (outDates m l).dedup.length

/-! ### Helper lemmas: case analysis of `deduplicate` and loop unfolding -/

lemma dedup_out_mem {st mo u ma : String} {d : List String}
    (h : py_lower st = "out") (hk : dedup_key mo u ma ∈ d) :
    deduplicate d st mo u ma = (true, d) := by
  simp [deduplicate, h, hk]

lemma dedup_out_not_mem {st mo u ma : String} {d : List String}
    (h : py_lower st = "out") (hk : dedup_key mo u ma ∉ d) :
    deduplicate d st mo u ma = (false, dedup_key mo u ma :: d) := by
  simp [deduplicate, h, hk]

lemma dedup_in_mem {st mo u ma : String} {d : List String}
    (h : py_lower st = "in") (hk : dedup_key mo u ma ∈ d) :
    deduplicate d st mo u ma = (false, d.erase (dedup_key mo u ma)) := by
  have hne : py_lower st ≠ "out" := by rw [h]; decide
  simp [deduplicate, h, hk, hne]

lemma dedup_in_not_mem {st mo u ma : String} {d : List String}
    (h : py_lower st = "in") (hk : dedup_key mo u ma ∉ d) :
    deduplicate d st mo u ma = (true, d) := by
  have hne : py_lower st ≠ "out" := by rw [h]; decide
  simp [deduplicate, h, hk, hne]

lemma dedup_other {st : String} (mo u ma : String) (d : List String)
    (h1 : py_lower st ≠ "out") (h2 : py_lower st ≠ "in") :
    deduplicate d st mo u ma = (false, d) := by
  simp [deduplicate, h1, h2]

lemma stats_loop_drop {e : Event} {d d' : List String} {c : StatsCore}
    {rest : List Event}
    (h : deduplicate d e.state e.module e.user e.machine = (true, d')) :
    do_some_stats_loop c d (e :: rest) = do_some_stats_loop c d' rest := by
  simp [do_some_stats_loop, h]

lemma stats_loop_keep {e : Event} {d d' : List String} {c : StatsCore}
    {rest : List Event}
    (h : deduplicate d e.state e.module e.user e.machine = (false, d')) :
    do_some_stats_loop c d (e :: rest)
      = do_some_stats_loop (stats_update c e) d' rest := by
  simp [do_some_stats_loop, h]

lemma gnuplot_loop_drop {e : Event} {d d' : List String} {g : GnuplotCore}
    {rest : List Event}
    (h : deduplicate d e.state e.module e.user e.machine = (true, d')) :
    do_gnuplot_loop g d (e :: rest) = do_gnuplot_loop g d' rest := by
  simp [do_gnuplot_loop, h]

lemma gnuplot_loop_keep {e : Event} {d d' : List String} {g : GnuplotCore}
    {rest : List Event}
    (h : deduplicate d e.state e.module e.user e.machine = (false, d')) :
    do_gnuplot_loop g d (e :: rest)
      = do_gnuplot_loop (gnuplot_update g e) d' rest := by
  simp [do_gnuplot_loop, h]

lemma accepted_from_drop {e : Event} {d d' : List String} {rest : List Event}
    (h : deduplicate d e.state e.module e.user e.machine = (true, d')) :
    accepted_from d (e :: rest) = accepted_from d' rest := by
  simp [accepted_from, h]

lemma accepted_from_keep {e : Event} {d d' : List String} {rest : List Event}
    (h : deduplicate d e.state e.module e.user e.machine = (false, d')) :
    accepted_from d (e :: rest) = e :: accepted_from d' rest := by
  simp [accepted_from, h]

/-! ### Helper lemmas: effect of one `stats_update` / `gnuplot_update` step -/

lemma stats_update_stats_ne {c : StatsCore} {e : Event} {m : String}
    (h : m ≠ e.module) : (stats_update c e).stats m = c.stats m := by
  simp [stats_update, h]

lemma stats_update_nb_users_out {c : StatsCore} {e : Event}
    (h : py_lower e.state = "out") :
    ((stats_update c e).stats e.module).nb_users
      = (c.stats e.module).nb_users + 1 := by
  simp [stats_update, count_users_upon_state, h]

lemma stats_update_nb_users_in {c : StatsCore} {e : Event}
    (h : py_lower e.state = "in") :
    ((stats_update c e).stats e.module).nb_users
      = (c.stats e.module).nb_users - 1 := by
  have hne : py_lower e.state ≠ "out" := by rw [h]; decide
  simp [stats_update, count_users_upon_state, h, hne]

lemma stats_update_nb_users_other {c : StatsCore} {e : Event}
    (h1 : py_lower e.state ≠ "out") (h2 : py_lower e.state ≠ "in") :
    ((stats_update c e).stats e.module).nb_users
      = (c.stats e.module).nb_users := by
  simp [stats_update, count_users_upon_state, h1, h2]

lemma stats_update_total_use_out {c : StatsCore} {e : Event}
    (h : py_lower e.state = "out") :
    ((stats_update c e).stats e.module).total_use
      = (c.stats e.module).total_use + 1 := by
  simp [stats_update, count_users_upon_state, h]

lemma stats_update_total_use_not_out {c : StatsCore} {e : Event}
    (h : py_lower e.state ≠ "out") :
    ((stats_update c e).stats e.module).total_use
      = (c.stats e.module).total_use := by
  by_cases h2 : py_lower e.state = "in" <;>
    simp [stats_update, count_users_upon_state, h, h2]

lemma stats_update_days_out {c : StatsCore} {e : Event}
    (h : py_lower e.state = "out") :
    ((stats_update c e).stats e.module).nb_days
        = (if e.date = (c.stats e.module).old_date then (c.stats e.module).nb_days
           else (c.stats e.module).nb_days + 1) ∧
      ((stats_update c e).stats e.module).old_date
        = (if e.date = (c.stats e.module).old_date then (c.stats e.module).old_date
           else e.date) := by
  by_cases hd : e.date = (c.stats e.module).old_date <;>
    simp [stats_update, h, hd]

lemma stats_update_days_not_out {c : StatsCore} {e : Event}
    (h : py_lower e.state ≠ "out") :
    ((stats_update c e).stats e.module).nb_days = (c.stats e.module).nb_days ∧
      ((stats_update c e).stats e.module).old_date
        = (c.stats e.module).old_date := by
  simp [stats_update, h]

lemma gnuplot_update_stats_ne {g : GnuplotCore} {e : Event} {m : String}
    (h : m ≠ e.module) : (gnuplot_update g e).stats m = g.stats m := by
  simp [gnuplot_update, h]

lemma gnuplot_update_stats_eq (g : GnuplotCore) (e : Event) :
    (gnuplot_update g e).stats e.module
      = (e.date, e.time, next_use (g.stats e.module) e.state)
          :: g.stats e.module := by
  cases h : g.stats e.module <;> simp [gnuplot_update, next_use, h]

lemma gnuplot_use_out {g : GnuplotCore} {e : Event}
    (h : py_lower e.state = "out") :
    currentUse ((gnuplot_update g e).stats e.module)
      = currentUse (g.stats e.module) + 1 := by
  rw [gnuplot_update_stats_eq]
  cases hl : g.stats e.module with
  | nil => simp [currentUse, next_use, init_use_upon_state, h, hl]
  | cons p t =>
    obtain ⟨a, b, u⟩ := p
    simp [currentUse, next_use, update_use_value_upon_state, h, hl]

lemma gnuplot_use_in {g : GnuplotCore} {e : Event}
    (h : py_lower e.state = "in") (hne : g.stats e.module ≠ []) :
    currentUse ((gnuplot_update g e).stats e.module)
      = currentUse (g.stats e.module) - 1 := by
  have hno : py_lower e.state ≠ "out" := by rw [h]; decide
  rw [gnuplot_update_stats_eq]
  cases hl : g.stats e.module with
  | nil => exact absurd hl hne
  | cons p t =>
    obtain ⟨a, b, u⟩ := p
    simp [currentUse, next_use, update_use_value_upon_state, h, hno, hl]

lemma gnuplot_use_other {g : GnuplotCore} {e : Event}
    (h1 : py_lower e.state ≠ "out") (h2 : py_lower e.state ≠ "in") :
    currentUse ((gnuplot_update g e).stats e.module)
      = currentUse (g.stats e.module) := by
  rw [gnuplot_update_stats_eq]
  cases hl : g.stats e.module with
  | nil => simp [currentUse, next_use, init_use_upon_state, h1, hl]
  | cons p t =>
    obtain ⟨a, b, u⟩ := p
    simp [currentUse, next_use, update_use_value_upon_state, h1, h2, hl]

/-! ### Helper lemmas: counting checkouts and checkins -/

lemma countOuts_cons (m : String) (e : Event) (l : List Event) :
    countOuts m (e :: l)
      = (if e.module = m ∧ py_lower e.state = "out" then 1 else 0)
        + countOuts m l := by
  by_cases h : e.module = m ∧ py_lower e.state = "out" <;>
    simp [countOuts, outsFor, List.filter_cons, h]
  omega

lemma countIns_cons (m : String) (e : Event) (l : List Event) :
    countIns m (e :: l)
      = (if e.module = m ∧ py_lower e.state = "in" then 1 else 0)
        + countIns m l := by
  by_cases h : e.module = m ∧ py_lower e.state = "in" <;>
    simp [countIns, insFor, List.filter_cons, h]
  omega

lemma countOuts_nil (m : String) : countOuts m [] = 0 := rfl

lemma countIns_nil (m : String) : countIns m [] = 0 := rfl

lemma erase_append_not_mem (a : String) :
    ∀ (l₁ l₂ : List String), a ∉ l₁ → (l₁ ++ a :: l₂).erase a = l₁ ++ l₂ := by
  intro l₁
  induction l₁ with
  | nil => intro l₂ _; simp [List.erase_cons]
  | cons b t ih =>
    intro l₂ hna
    have hba : ¬(b = a) := fun hc => hna (by simp [hc])
    have hta : a ∉ t := fun hc => hna (by simp [hc])
    simp [List.erase_cons, hba, ih l₂ hta]

/-! ### The open-seats invariant of the two deduplicated folds -/

lemma openCount_nonneg (os : List (String × String)) (m : String) :
    0 ≤ openCount os m :=
  Int.ofNat_nonneg _

lemma openCount_cons (p : String × String) (os : List (String × String))
    (m : String) :
    openCount (p :: os) m = (if p.1 = m then 1 else 0) + openCount os m := by
  by_cases h : p.1 = m <;> simp [openCount, List.filter_cons, h]
  omega

lemma openCount_append (l₁ l₂ : List (String × String)) (m : String) :
    openCount (l₁ ++ l₂) m = openCount l₁ m + openCount l₂ m := by
  simp [openCount, List.filter_append]

lemma keyOf_def (e : Event) :
    keyOf e = dedup_key e.module e.user e.machine := rfl

lemma currentUse_nil_ne {l : List (String × String × Int)}
    (h : currentUse l ≠ 0) : l ≠ [] := by
  intro hc
  rw [hc] at h
  exact h rfl

lemma out_ne_in : ("out" : String) ≠ "in" := by decide

lemma stats_update_nb_users_general (c : StatsCore) (e : Event) (m : String) :
    ((stats_update c e).stats m).nb_users
      = (c.stats m).nb_users
        + (if e.module = m ∧ py_lower e.state = "out" then 1 else 0)
        - (if e.module = m ∧ py_lower e.state = "in" then 1 else 0) := by
  by_cases hm : m = e.module
  · subst hm
    by_cases hout : py_lower e.state = "out"
    · rw [stats_update_nb_users_out hout]
      simp [hout, out_ne_in]
    · by_cases hin : py_lower e.state = "in"
      · rw [stats_update_nb_users_in hin]
        simp [hin, hout]
      · rw [stats_update_nb_users_other hout hin]
        simp [hout, hin]
  · rw [stats_update_stats_ne hm]
    have hme : ¬(e.module = m) := fun h => hm h.symm
    simp [hme]

lemma gnuplot_use_general (g : GnuplotCore) (e : Event) (m : String)
    (hne : py_lower e.state = "in" → e.module = m → g.stats e.module ≠ []) :
    currentUse ((gnuplot_update g e).stats m)
      = currentUse (g.stats m)
        + (if e.module = m ∧ py_lower e.state = "out" then 1 else 0)
        - (if e.module = m ∧ py_lower e.state = "in" then 1 else 0) := by
  by_cases hm : m = e.module
  · subst hm
    by_cases hout : py_lower e.state = "out"
    · rw [gnuplot_use_out hout]
      simp [hout, out_ne_in]
    · by_cases hin : py_lower e.state = "in"
      · rw [gnuplot_use_in hin (hne hin rfl)]
        simp [hin, hout]
      · rw [gnuplot_use_other hout hin]
        simp [hout, hin]
  · rw [gnuplot_update_stats_ne hm]
    have hme : ¬(e.module = m) := fun h => hm h.symm
    simp [hme]

/-- Invariant of the two deduplicated folds: starting from a dedup set that
is the key image of a list of open (module, key) pairs with distinct keys,
matching the per-module counters, every prefix keeps the counters equal to
the number of open seats of the module (hence non-negative), and the
counters change by accepted checkouts minus accepted checkins.  The first
two hypotheses say that a dedup key determines its module, on the remaining
stream against the open pairs and within the remaining stream. -/
lemma loops_inv :
    ∀ (evs : List Event) (os : List (String × String)) (c : StatsCore)
      (g : GnuplotCore),
      (∀ e ∈ evs, ∀ p ∈ os, keyOf e = p.2 → e.module = p.1) →
      (∀ e1 ∈ evs, ∀ e2 ∈ evs, keyOf e1 = keyOf e2 → e1.module = e2.module) →
      (os.map Prod.snd).Nodup →
      (∀ m, (c.stats m).nb_users = openCount os m) →
      (∀ m, currentUse (g.stats m) = openCount os m) →
      ∀ m,
        ((do_some_stats_loop c (os.map Prod.snd) evs).stats m).nb_users
            = (c.stats m).nb_users
              + countOuts m (accepted_from (os.map Prod.snd) evs)
              - countIns m (accepted_from (os.map Prod.snd) evs)
          ∧ 0 ≤ ((do_some_stats_loop c (os.map Prod.snd) evs).stats m).nb_users
          ∧ currentUse ((do_gnuplot_loop g (os.map Prod.snd) evs).stats m)
              = currentUse (g.stats m)
                + countOuts m (accepted_from (os.map Prod.snd) evs)
                - countIns m (accepted_from (os.map Prod.snd) evs)
          ∧ 0 ≤ currentUse ((do_gnuplot_loop g (os.map Prod.snd) evs).stats m) := by
  intro evs
  induction evs with
  | nil =>
    intro os c g _ _ _ hc hg m
    have h1 : do_some_stats_loop c (os.map Prod.snd) [] = c := rfl
    have h2 : do_gnuplot_loop g (os.map Prod.snd) [] = g := rfl
    have h3 : accepted_from (os.map Prod.snd) [] = [] := rfl
    rw [h1, h2, h3, countOuts_nil, countIns_nil, hc m, hg m]
    exact ⟨by omega, openCount_nonneg os m, by omega, openCount_nonneg os m⟩
  | cons e rest ih =>
    intro os c g hos hcons hnd hc hg m
    have hcons' : ∀ e1 ∈ rest, ∀ e2 ∈ rest,
        keyOf e1 = keyOf e2 → e1.module = e2.module :=
      fun e1 h1 e2 h2 =>
        hcons e1 (List.mem_cons_of_mem _ h1) e2 (List.mem_cons_of_mem _ h2)
    by_cases hout : py_lower e.state = "out"
    · by_cases hk : dedup_key e.module e.user e.machine ∈ os.map Prod.snd
      · -- duplicate checkout: dropped
        have hd := dedup_out_mem (d := os.map Prod.snd) hout hk
        rw [stats_loop_drop hd, gnuplot_loop_drop hd, accepted_from_drop hd]
        exact ih os c g (fun e1 h1 => hos e1 (List.mem_cons_of_mem _ h1))
          hcons' hnd hc hg m
      · -- accepted checkout: open a seat
        have hd := dedup_out_not_mem (d := os.map Prod.snd) hout hk
        rw [stats_loop_keep hd, gnuplot_loop_keep hd, accepted_from_keep hd]
        have hmap : dedup_key e.module e.user e.machine :: os.map Prod.snd
            = ((e.module, keyOf e) :: os).map Prod.snd := by
          simp [keyOf_def]
        rw [hmap]
        have hos' : ∀ e1 ∈ rest, ∀ p ∈ (e.module, keyOf e) :: os,
            keyOf e1 = p.2 → e1.module = p.1 := by
          intro e1 h1 p hp hkey
          rcases List.mem_cons.mp hp with hph | hpo
          · subst hph
            exact hcons e1 (List.mem_cons_of_mem _ h1) e
              (List.mem_cons_self _ _) hkey
          · exact hos e1 (List.mem_cons_of_mem _ h1) p hpo hkey
        have hnd' : (((e.module, keyOf e) :: os).map Prod.snd).Nodup := by
          simp only [List.map_cons]
          exact List.nodup_cons.mpr ⟨by simpa [keyOf_def] using hk, hnd⟩
        have hc' : ∀ m', ((stats_update c e).stats m').nb_users
            = openCount ((e.module, keyOf e) :: os) m' := by
          intro m'
          rw [stats_update_nb_users_general, hc m', openCount_cons]
          by_cases hm : e.module = m' <;> simp [hm, hout, out_ne_in] <;> try omega
        have hg' : ∀ m', currentUse ((gnuplot_update g e).stats m')
            = openCount ((e.module, keyOf e) :: os) m' := by
          intro m'
          rw [gnuplot_use_general g e m'
              (fun hin _ => absurd (hout.symm.trans hin) out_ne_in),
            hg m', openCount_cons]
          by_cases hm : e.module = m' <;> simp [hm, hout, out_ne_in] <;> try omega
        obtain ⟨k1, k2, k3, k4⟩ :=
          ih ((e.module, keyOf e) :: os) (stats_update c e) (gnuplot_update g e)
            hos' hcons' hnd' hc' hg' m
        refine ⟨?_, k2, ?_, k4⟩
        · rw [countOuts_cons, countIns_cons, k1, stats_update_nb_users_general]
          ring
        · rw [countOuts_cons, countIns_cons, k3,
            gnuplot_use_general g e m
              (fun hin _ => absurd (hout.symm.trans hin) out_ne_in)]
          ring
    · by_cases hin : py_lower e.state = "in"
      · by_cases hk : dedup_key e.module e.user e.machine ∈ os.map Prod.snd
        · -- accepted checkin: close the open seat with this key
          obtain ⟨p, hpos, hp2⟩ := List.mem_map.mp hk
          have hpm : e.module = p.1 :=
            hos e (List.mem_cons_self _ _) p hpos (by rw [keyOf_def, hp2])
          obtain ⟨os₁, os₂, hsplit⟩ := List.append_of_mem hpos
          subst hsplit
          rw [List.map_append, List.map_cons] at hnd
          have hparts := List.nodup_append.mp hnd
          have hnotmem : dedup_key e.module e.user e.machine ∉ os₁.map Prod.snd := by
            intro hmem
            exact hparts.2.2 hmem (by rw [hp2]; exact List.mem_cons_self _ _)
          have herase : (((os₁ ++ p :: os₂)).map Prod.snd).erase
                (dedup_key e.module e.user e.machine)
              = (os₁ ++ os₂).map Prod.snd := by
            rw [List.map_append, List.map_cons, hp2,
              erase_append_not_mem _ _ _ hnotmem, List.map_append]
          have hd := dedup_in_mem (d := (os₁ ++ p :: os₂).map Prod.snd) hin hk
          rw [herase] at hd
          rw [stats_loop_keep hd, gnuplot_loop_keep hd, accepted_from_keep hd]
          have hoc : ∀ m', openCount (os₁ ++ p :: os₂) m'
              = openCount (os₁ ++ os₂) m' + (if p.1 = m' then 1 else 0) := by
            intro m'
            rw [openCount_append, openCount_append, openCount_cons]
            ring
          have hgne : g.stats e.module ≠ [] := by
            have h1 := hg e.module
            rw [hoc e.module] at h1
            have hp1 : (if p.1 = e.module then (1:Int) else 0) = 1 :=
              if_pos hpm.symm
            intro hnil
            rw [hnil] at h1
            have h0 : (0:Int) = openCount (os₁ ++ os₂) e.module + 1 := by
              rw [hp1] at h1
              exact h1
            have := openCount_nonneg (os₁ ++ os₂) e.module
            omega
          have hos' : ∀ e1 ∈ rest, ∀ q ∈ os₁ ++ os₂,
              keyOf e1 = q.2 → e1.module = q.1 := by
            intro e1 h1 q hq hkey
            have hq' : q ∈ os₁ ++ p :: os₂ := by
              rcases List.mem_append.mp hq with h | h
              · exact List.mem_append.mpr (Or.inl h)
              · exact List.mem_append.mpr (Or.inr (List.mem_cons_of_mem _ h))
            exact hos e1 (List.mem_cons_of_mem _ h1) q hq' hkey
          have hnd' : ((os₁ ++ os₂).map Prod.snd).Nodup := by
            rw [List.map_append]
            refine List.nodup_append.mpr
              ⟨hparts.1, (List.nodup_cons.mp hparts.2.1).2, ?_⟩
            intro a ha1 ha2
            exact hparts.2.2 ha1 (List.mem_cons_of_mem _ ha2)
          have hc' : ∀ m', ((stats_update c e).stats m').nb_users
              = openCount (os₁ ++ os₂) m' := by
            intro m'
            rw [stats_update_nb_users_general, hc m', hoc m']
            by_cases hm : e.module = m'
            · have hp1 : p.1 = m' := by rw [← hm, ← hpm]
              simp [hm, hin, hout, hp1]
            · have hp1 : ¬(p.1 = m') := by rw [← hpm]; exact hm
              simp [hm, hp1]
          have hg' : ∀ m', currentUse ((gnuplot_update g e).stats m')
              = openCount (os₁ ++ os₂) m' := by
            intro m'
            rw [gnuplot_use_general g e m' (fun _ _ => hgne), hg m', hoc m']
            by_cases hm : e.module = m'
            · have hp1 : p.1 = m' := by rw [← hm, ← hpm]
              simp [hm, hin, hout, hp1]
            · have hp1 : ¬(p.1 = m') := by rw [← hpm]; exact hm
              simp [hm, hp1]
          obtain ⟨k1, k2, k3, k4⟩ :=
            ih (os₁ ++ os₂) (stats_update c e) (gnuplot_update g e)
              hos' hcons' hnd' hc' hg' m
          refine ⟨?_, k2, ?_, k4⟩
          · rw [countOuts_cons, countIns_cons, k1, stats_update_nb_users_general]
            ring
          · rw [countOuts_cons, countIns_cons, k3,
              gnuplot_use_general g e m (fun _ _ => hgne)]
            ring
        · -- orphan checkin: dropped
          have hd := dedup_in_not_mem (d := os.map Prod.snd) hin hk
          rw [stats_loop_drop hd, gnuplot_loop_drop hd, accepted_from_drop hd]
          exact ih os c g (fun e1 h1 => hos e1 (List.mem_cons_of_mem _ h1))
            hcons' hnd hc hg m
      · -- neither checkout nor checkin: kept, seats unchanged
        have hd := dedup_other e.module e.user e.machine (os.map Prod.snd) hout hin
        rw [stats_loop_keep hd, gnuplot_loop_keep hd, accepted_from_keep hd]
        have hc' : ∀ m', ((stats_update c e).stats m').nb_users
            = openCount os m' := by
          intro m'
          rw [stats_update_nb_users_general, hc m']
          simp [hout, hin]
        have hg' : ∀ m', currentUse ((gnuplot_update g e).stats m')
            = openCount os m' := by
          intro m'
          rw [gnuplot_use_general g e m' (fun h _ => absurd h hin), hg m']
          simp [hout, hin]
        obtain ⟨k1, k2, k3, k4⟩ :=
          ih os (stats_update c e) (gnuplot_update g e)
            (fun e1 h1 => hos e1 (List.mem_cons_of_mem _ h1))
            hcons' hnd hc' hg' m
        refine ⟨?_, k2, ?_, k4⟩
        · rw [countOuts_cons, countIns_cons, k1, stats_update_nb_users_general]
          ring
        · rw [countOuts_cons, countIns_cons, k3,
            gnuplot_use_general g e m (fun h _ => absurd h hin)]
          ring

/-! ### Fusion: the deduplicated loops are pure folds over the accepted
stream -/

lemma do_some_stats_loop_fusion :
    ∀ (evs : List Event) (c : StatsCore) (d : List String),
      do_some_stats_loop c d evs = (accepted_from d evs).foldl stats_update c := by
  intro evs
  induction evs with
  | nil => intro c d; rfl
  | cons e rest ih =>
    intro c d
    cases hd : deduplicate d e.state e.module e.user e.machine with
    | mk b d' =>
      cases b
      · rw [stats_loop_keep hd, accepted_from_keep hd, List.foldl_cons, ih]
      · rw [stats_loop_drop hd, accepted_from_drop hd, ih]

lemma do_gnuplot_loop_fusion :
    ∀ (evs : List Event) (g : GnuplotCore) (d : List String),
      do_gnuplot_loop g d evs = (accepted_from d evs).foldl gnuplot_update g := by
  intro evs
  induction evs with
  | nil => intro g d; rfl
  | cons e rest ih =>
    intro g d
    cases hd : deduplicate d e.state e.module e.user e.machine with
    | mk b d' =>
      cases b
      · rw [gnuplot_loop_keep hd, accepted_from_keep hd, List.foldl_cons, ih]
      · rw [gnuplot_loop_drop hd, accepted_from_drop hd, ih]

lemma accepted_from_append :
    ∀ (p q : List Event) (d : List String),
      accepted_from d (p ++ q)
        = accepted_from d p ++ accepted_from (dedup_after d p) q := by
  intro p
  induction p with
  | nil => intro q d; rfl
  | cons e rest ih =>
    intro q d
    cases hd : deduplicate d e.state e.module e.user e.machine with
    | mk b d' =>
      cases b
      · rw [List.cons_append, accepted_from_keep hd, accepted_from_keep hd, ih]
        simp [dedup_after, hd]
      · rw [List.cons_append, accepted_from_drop hd, accepted_from_drop hd, ih]
        simp [dedup_after, hd]

lemma do_some_stats_loop_append :
    ∀ (p q : List Event) (c : StatsCore) (d : List String),
      do_some_stats_loop c d (p ++ q)
        = do_some_stats_loop (do_some_stats_loop c d p) (dedup_after d p) q := by
  intro p
  induction p with
  | nil => intro q c d; rfl
  | cons e rest ih =>
    intro q c d
    cases hd : deduplicate d e.state e.module e.user e.machine with
    | mk b d' =>
      cases b
      · rw [List.cons_append, stats_loop_keep hd, stats_loop_keep hd, ih]
        simp [dedup_after, hd]
      · rw [List.cons_append, stats_loop_drop hd, stats_loop_drop hd, ih]
        simp [dedup_after, hd]

/-! ### Pure fold lemmas for the summary statistics -/

lemma foldl_stats_total_use :
    ∀ (l : List Event) (c : StatsCore) (m : String),
      ((l.foldl stats_update c).stats m).total_use
        = (c.stats m).total_use + countOuts m l := by
  intro l
  induction l with
  | nil => intro c m; simp [countOuts_nil]
  | cons e rest ih =>
    intro c m
    rw [List.foldl_cons, ih, countOuts_cons]
    have hsu : ((stats_update c e).stats m).total_use
        = (c.stats m).total_use
          + (if e.module = m ∧ py_lower e.state = "out" then 1 else 0) := by
      by_cases hm : m = e.module
      · subst hm
        by_cases hout : py_lower e.state = "out"
        · rw [stats_update_total_use_out hout]
          simp [hout]
        · rw [stats_update_total_use_not_out hout]
          simp [hout]
      · rw [stats_update_stats_ne hm]
        have hme : ¬(e.module = m) := fun h => hm h.symm
        simp [hme]
    rw [hsu]
    ring

lemma chainCount_cons (prev d : String) (ds : List String) :
    chainCount prev (d :: ds)
      = if d = prev then chainCount prev ds else 1 + chainCount d ds := rfl

lemma lastOr_cons (prev d : String) (ds : List String) :
    lastOr prev (d :: ds) = lastOr d ds := rfl

lemma outDates_cons_out {e : Event} {m : String} (rest : List Event)
    (hm : e.module = m) (hout : py_lower e.state = "out") :
    outDates m (e :: rest) = e.date :: outDates m rest := by
  simp [outDates, outsFor, List.filter_cons, hm, hout]

lemma outDates_cons_skip {e : Event} {m : String} (rest : List Event)
    (h : ¬(e.module = m ∧ py_lower e.state = "out")) :
    outDates m (e :: rest) = outDates m rest := by
  simp [outDates, outsFor, List.filter_cons, h]

lemma foldl_stats_days :
    ∀ (l : List Event) (c : StatsCore) (m : String),
      ((l.foldl stats_update c).stats m).nb_days
          = (c.stats m).nb_days
            + chainCount ((c.stats m).old_date) (outDates m l)
        ∧ ((l.foldl stats_update c).stats m).old_date
          = lastOr ((c.stats m).old_date) (outDates m l) := by
  intro l
  induction l with
  | nil => intro c m; simp [outDates, outsFor, chainCount, lastOr]
  | cons e rest ih =>
    intro c m
    rw [List.foldl_cons]
    obtain ⟨ih1, ih2⟩ := ih (stats_update c e) m
    by_cases hm : e.module = m
    · subst hm
      by_cases hout : py_lower e.state = "out"
      · rw [outDates_cons_out rest rfl hout, chainCount_cons, lastOr_cons]
        obtain ⟨hdy, hod⟩ := stats_update_days_out (c := c) hout
        rw [ih1, ih2, hdy, hod]
        by_cases hd : e.date = (c.stats e.module).old_date
        · rw [if_pos hd, if_pos hd, if_pos hd]
          exact ⟨rfl, by rw [hd]⟩
        · rw [if_neg hd, if_neg hd, if_neg hd]
          exact ⟨by omega, rfl⟩
      · rw [outDates_cons_skip rest (fun hc => hout hc.2)]
        obtain ⟨hdy, hod⟩ := stats_update_days_not_out (c := c) hout
        rw [ih1, ih2, hdy, hod]
        exact ⟨rfl, rfl⟩
    · rw [outDates_cons_skip rest (fun hc => hm hc.1)]
      rw [ih1, ih2, stats_update_stats_ne (fun h => hm h.symm)]
      exact ⟨rfl, rfl⟩

/-! ### Frame reasoning for `read_files` across file boundaries -/

lemma boot_line_frame {r r' : List Event} {n n' : Int} {s s' : ReadAcc}
    (line : Line) (h : FrameRel r r' n n' s s') :
    FrameRel r r' n n' (boot_line s line) (boot_line s' line) := by
  obtain ⟨hd, ho, hm, new, dn, h1, h2, h3, h4⟩ := h
  unfold boot_line
  rw [← hm]
  by_cases hb : s.date_matched = false
  · rw [if_pos hb, if_pos hb]
    cases hsr : line.startRes with
    | none => exact ⟨hd, ho, hm, new, dn, h1, h2, h3, h4⟩
    | some t =>
      obtain ⟨m, d, y⟩ := t
      exact ⟨rfl, ho, rfl, new, dn, h1, h2, h3, h4⟩
  · rw [if_neg hb, if_neg hb]
    exact ⟨hd, ho, hm, new, dn, h1, h2, h3, h4⟩

lemma boot_line_none {acc : ReadAcc} {line : Line}
    (hs : line.startRes = none) : boot_line acc line = acc := by
  by_cases hb : acc.date_matched = false <;> simp [boot_line, hs, hb]

lemma read_line_event {acc : ReadAcc} {line : Line}
    {time st mo us ma : String}
    (hev : line.eventRes = some (time, st, mo, us, ma)) :
    read_line acc line
      = { boot_line acc line with
          result_list := (boot_line acc line).result_list
            ++ [⟨(boot_line acc line).date, time, st, mo, us, ma⟩] } := by
  simp [read_line, hev]

lemma read_line_ts_new {acc : ReadAcc} {line : Line} {m d y : String}
    (hev : line.eventRes = none) (hts : line.tsRes = some (m, d, y))
    (hc : format_date m d y ≠ (boot_line acc line).old_date) :
    read_line acc line
      = { boot_line acc line with
          date := format_date m d y,
          nb_days := (boot_line acc line).nb_days + 1,
          old_date := format_date m d y } := by
  simp [read_line, hev, hts, hc]

lemma read_line_ts_old {acc : ReadAcc} {line : Line} {m d y : String}
    (hev : line.eventRes = none) (hts : line.tsRes = some (m, d, y))
    (hc : format_date m d y = (boot_line acc line).old_date) :
    read_line acc line
      = { boot_line acc line with date := format_date m d y } := by
  simp [read_line, hev, hts, hc]

lemma read_line_none {acc : ReadAcc} {line : Line}
    (hev : line.eventRes = none) (hts : line.tsRes = none) :
    read_line acc line = boot_line acc line := by
  simp [read_line, hev, hts]

lemma read_line_frame {r r' : List Event} {n n' : Int} {s s' : ReadAcc}
    (line : Line) (h : FrameRel r r' n n' s s') :
    FrameRel r r' n n' (read_line s line) (read_line s' line) := by
  have hb := boot_line_frame line h
  obtain ⟨hd, ho, hm, new, dn, h1, h2, h3, h4⟩ := hb
  cases hev : line.eventRes with
  | some t =>
    obtain ⟨time, st, mo, us, ma⟩ := t
    rw [read_line_event hev, read_line_event hev]
    refine ⟨hd, ho, hm,
      new ++ [⟨(boot_line s line).date, time, st, mo, us, ma⟩], dn,
      ?_, ?_, h3, h4⟩
    · simp [h1]
    · rw [hd]
      simp [h2]
  | none =>
    cases hts : line.tsRes with
    | none =>
      rw [read_line_none hev hts, read_line_none hev hts]
      exact ⟨hd, ho, hm, new, dn, h1, h2, h3, h4⟩
    | some t =>
      obtain ⟨m, d, y⟩ := t
      by_cases hc : format_date m d y = (boot_line s line).old_date
      · rw [read_line_ts_old hev hts hc, read_line_ts_old hev hts (ho ▸ hc)]
        exact ⟨rfl, ho, hm, new, dn, h1, h2, h3, h4⟩
      · rw [read_line_ts_new hev hts hc, read_line_ts_new hev hts (ho ▸ hc)]
        exact ⟨rfl, rfl, hm, new, dn + 1, h1, h2, by simp [h3]; omega, by simp [h4]; omega⟩

lemma read_lines_frame {r r' : List Event} {n n' : Int} :
    ∀ (lines : List Line) (s s' : ReadAcc),
      FrameRel r r' n n' s s' →
      FrameRel r r' n n' (lines.foldl read_line s) (lines.foldl read_line s') := by
  intro lines
  induction lines with
  | nil => intro s s' h; exact h
  | cons line rest ih =>
    intro s s' h
    rw [List.foldl_cons, List.foldl_cons]
    exact ih _ _ (read_line_frame line h)

/-! ### The emitted time series -/

lemma countOuts_nonneg (m : String) (l : List Event) : 0 ≤ countOuts m l :=
  Int.ofNat_nonneg _

lemma foldl_gnuplot_series :
    ∀ (l : List Event) (g : GnuplotCore) (m : String),
      ((l.foldl gnuplot_update g).stats m).map entryPair
        = ((eventsFor m l).map evPair).reverse ++ (g.stats m).map entryPair := by
  intro l
  induction l with
  | nil => intro g m; simp [eventsFor]
  | cons e rest ih =>
    intro g m
    rw [List.foldl_cons, ih]
    by_cases hm : e.module = m
    · subst hm
      rw [gnuplot_update_stats_eq]
      have hf : eventsFor e.module (e :: rest) = e :: eventsFor e.module rest := by
        simp [eventsFor, List.filter_cons]
      rw [hf]
      simp [entryPair, evPair]
    · rw [gnuplot_update_stats_ne (fun hc => hm hc.symm)]
      have hf : eventsFor m (e :: rest) = eventsFor m rest := by
        simp [eventsFor, List.filter_cons, hm]
      rw [hf]

/-! ### Claims -/

/-- Claim C1, counterexample: the running per-feature counter can go
negative.  The string-concatenated dedup key collides across features:
the checkout of feature `x` by user `u` on machine `a:v@b` and the checkin
of feature `x:u@a` by user `v` on machine `b` share the key `x:u@a:v@b`, so
the checkin is accepted and drives the count of feature `x:u@a` (whose
first event it is) to `-1` in the stats fold. -/
theorem nb_users_negative_on_key_collision :
    ((do_some_stats
        [⟨"d1", "t1", "OUT", "x", "u", "a:v@b"⟩,
         ⟨"d1", "t2", "IN", "x:u@a", "v", "b"⟩]).stats "x:u@a").nb_users
      = -1 := by
  decide

/-- Claim C1 (corrected): on any stream whose dedup keys do not collide
across features (`key_consistent`), the running concurrent-user count of
every feature — `nb_users` in the stats fold and the most recent `use`
value in the time-series fold — is non-negative after processing every
prefix of the deduplicated fold. -/
theorem nb_users_nonneg_of_key_consistent (evs p q : List Event)
    (hcons : key_consistent evs) (hpq : evs = p ++ q) (m : String) :
    0 ≤ ((do_some_stats p).stats m).nb_users
      ∧ 0 ≤ currentUse ((do_gnuplot_stats p).stats m) := by
  have hp : key_consistent p := by
    intro e1 h1 e2 h2
    refine hcons e1 ?_ e2 ?_
    · rw [hpq]; exact List.mem_append.mpr (Or.inl h1)
    · rw [hpq]; exact List.mem_append.mpr (Or.inl h2)
  obtain ⟨_, k2, _, k4⟩ :=
    loops_inv p [] init_stats_core init_gnuplot_core
      (fun e1 _ p1 hp1 => absurd hp1 (List.not_mem_nil p1))
      hp
      List.nodup_nil
      (fun m' => rfl)
      (fun m' => rfl)
      m
  exact ⟨k2, k4⟩

/-- Claim C1, witness. -/
theorem nb_users_nonneg_of_key_consistent_witness :
    0 ≤ ((do_some_stats [⟨"d", "t", "OUT", "f", "u", "m"⟩]).stats "f").nb_users
      ∧ 0 ≤ currentUse
          ((do_gnuplot_stats [⟨"d", "t", "OUT", "f", "u", "m"⟩]).stats "f") :=
  nb_users_nonneg_of_key_consistent
    [⟨"d", "t", "OUT", "f", "u", "m"⟩] [⟨"d", "t", "OUT", "f", "u", "m"⟩] []
    (by decide) (by decide) "f"

/-- Claim C2 (confirmed): the deduplicator drops a checkout whose key is
already open (so an identical checkout replayed right after an accepted one
is dropped — exactly one accepted checkout), accepts a checkin whose key is
open (removing the key, so there was a matching open checkout and no
accepted checkout intervened while the key stayed open), and drops a
checkin whose key has no open checkout. -/
theorem deduplicate_spec (st mo u ma : String) (d : List String) :
    (py_lower st = "out" → dedup_key mo u ma ∈ d →
        deduplicate d st mo u ma = (true, d))
      ∧ (py_lower st = "out" → dedup_key mo u ma ∉ d →
          deduplicate d st mo u ma = (false, dedup_key mo u ma :: d)
            ∧ (deduplicate (dedup_key mo u ma :: d) st mo u ma).1 = true)
      ∧ (py_lower st = "in" → dedup_key mo u ma ∈ d →
          deduplicate d st mo u ma = (false, d.erase (dedup_key mo u ma)))
      ∧ (py_lower st = "in" → dedup_key mo u ma ∉ d →
          deduplicate d st mo u ma = (true, d)) := by
  refine ⟨fun h hk => dedup_out_mem h hk,
    fun h hk => ⟨dedup_out_not_mem h hk, ?_⟩,
    fun h hk => dedup_in_mem h hk,
    fun h hk => dedup_in_not_mem h hk⟩
  rw [dedup_out_mem h (List.mem_cons_self _ _)]

/-- Claim C2, witness. -/
theorem deduplicate_spec_witness :
    deduplicate ["f:u@m"] "OUT" "f" "u" "m" = (true, ["f:u@m"])
      ∧ (deduplicate [] "OUT" "f" "u" "m"
            = (false, dedup_key "f" "u" "m" :: [])
          ∧ (deduplicate (dedup_key "f" "u" "m" :: []) "OUT" "f" "u" "m").1
            = true)
      ∧ deduplicate ["f:u@m"] "IN" "f" "u" "m"
          = (false, (["f:u@m"] : List String).erase (dedup_key "f" "u" "m"))
      ∧ deduplicate [] "IN" "f" "u" "m" = (true, []) :=
  ⟨(deduplicate_spec "OUT" "f" "u" "m" ["f:u@m"]).1 (by decide) (by decide),
    (deduplicate_spec "OUT" "f" "u" "m" []).2.1 (by decide) (by decide),
    (deduplicate_spec "IN" "f" "u" "m" ["f:u@m"]).2.2.1 (by decide) (by decide),
    (deduplicate_spec "IN" "f" "u" "m" []).2.2.2 (by decide) (by decide)⟩

/-- Claim C3, counterexample: a date resolved in an earlier file is not
used for event lines in a later file.  File 1 resolves the date
`2012/1/23` via a timestamp line; the event line at the top of file 2 is
nevertheless stamped with the per-file sentinel `??/??/????`. -/
theorem date_not_carried_across_files :
    (read_file ⟨[], 0, false, "??/??/????", ""⟩
        [⟨none, none, some ("1", "23", "2012")⟩]).date = "2012/1/23"
      ∧ (read_files [[⟨none, none, some ("1", "23", "2012")⟩],
            [⟨none, some ("9:00:00", "OUT", "F", "u", "m"), none⟩]]).2
          = [⟨"??/??/????", "9:00:00", "OUT", "F", "u", "m"⟩]
      ∧ ("??/??/????" : String) ≠ "2012/1/23" := by
  refine ⟨by decide, by decide, by decide⟩

/-- Claim C3 (corrected): file boundaries are not transparent to date
tracking.  At the top of each file `read_files` resets the tracked date to
the sentinel `??/??/????` and `old_date` to the empty string; only
`date_matched`, `nb_days` and `result_list` carry over.  Consequently the
events parsed from a file, the day-count delta it contributes and the
tracked date at its end are independent of the state accumulated by earlier
files, as long as the bootstrap flag agrees: two runs entering the same
file with arbitrarily different tracked dates, day counts and result lists
append the same events and the same day-count delta. -/
theorem read_file_boundary_reset (a a' : ReadAcc) (f : List Line)
    (hm : a.date_matched = a'.date_matched) :
    (read_file a f).date = (read_file a' f).date
      ∧ ∃ (new : List Event) (dn : Int),
          (read_file a f).result_list = a.result_list ++ new
            ∧ (read_file a' f).result_list = a'.result_list ++ new
            ∧ (read_file a f).nb_days = a.nb_days + dn
            ∧ (read_file a' f).nb_days = a'.nb_days + dn := by
  have h0 : FrameRel a.result_list a'.result_list a.nb_days a'.nb_days
      { a with date := "??/??/????", old_date := "" }
      { a' with date := "??/??/????", old_date := "" } :=
    ⟨rfl, rfl, hm, [], 0, by simp, by simp, by simp, by simp⟩
  obtain ⟨hd, _, _, new, dn, h1, h2, h3, h4⟩ := read_lines_frame f _ _ h0
  exact ⟨hd, new, dn, h1, h2, h3, h4⟩

/-- Claim C3, witness: entering the same one-event file with a resolved
date versus the unknown sentinel yields the same appended events. -/
theorem read_file_boundary_reset_witness :
    (read_file ⟨[], 3, true, "2012/1/23", "2012/1/23"⟩
        [⟨none, some ("9:00:00", "OUT", "F", "u", "m"), none⟩]).date
      = (read_file ⟨[⟨"d", "t", "OUT", "G", "v", "w"⟩], 0, true, "??/??/????", ""⟩
          [⟨none, some ("9:00:00", "OUT", "F", "u", "m"), none⟩]).date
      ∧ ∃ (new : List Event) (dn : Int),
          (read_file ⟨[], 3, true, "2012/1/23", "2012/1/23"⟩
              [⟨none, some ("9:00:00", "OUT", "F", "u", "m"), none⟩]).result_list
            = [] ++ new
          ∧ (read_file ⟨[⟨"d", "t", "OUT", "G", "v", "w"⟩], 0, true, "??/??/????", ""⟩
                [⟨none, some ("9:00:00", "OUT", "F", "u", "m"), none⟩]).result_list
            = [⟨"d", "t", "OUT", "G", "v", "w"⟩] ++ new
          ∧ (read_file ⟨[], 3, true, "2012/1/23", "2012/1/23"⟩
                [⟨none, some ("9:00:00", "OUT", "F", "u", "m"), none⟩]).nb_days
            = 3 + dn
          ∧ (read_file ⟨[⟨"d", "t", "OUT", "G", "v", "w"⟩], 0, true, "??/??/????", ""⟩
                [⟨none, some ("9:00:00", "OUT", "F", "u", "m"), none⟩]).nb_days
            = 0 + dn :=
  read_file_boundary_reset
    ⟨[], 3, true, "2012/1/23", "2012/1/23"⟩
    ⟨[⟨"d", "t", "OUT", "G", "v", "w"⟩], 0, true, "??/??/????", ""⟩
    [⟨none, some ("9:00:00", "OUT", "F", "u", "m"), none⟩] rfl

/-- Claim C5, counterexample: after the start-date bootstrap resolves the
tracked date to `2012/7/30`, a timestamp line carrying the same date
`7/30/2012` does change the tracker: `nb_days` is incremented (the code
compares against `old_date`, still empty, not against the tracked date). -/
theorem timestamp_same_date_still_counts :
    (read_line ⟨[], 0, false, "??/??/????", ""⟩
        ⟨some ("7", "30", "2012"), none, none⟩).date = "2012/7/30"
      ∧ (read_line (read_line ⟨[], 0, false, "??/??/????", ""⟩
            ⟨some ("7", "30", "2012"), none, none⟩)
          ⟨none, none, some ("7", "30", "2012")⟩).nb_days
        = (read_line ⟨[], 0, false, "??/??/????", ""⟩
            ⟨some ("7", "30", "2012"), none, none⟩).nb_days + 1
      ∧ (read_files [[⟨some ("7", "30", "2012"), none, none⟩,
            ⟨none, none, some ("7", "30", "2012")⟩]]).1 = 1 := by
  refine ⟨by decide, by decide, by decide⟩

/-- Claim C5 (corrected): on a timestamp line (one matching neither the
start-date nor the event pattern), `read_files` always sets the tracked
date to the timestamp's date, and it increments `nb_days` (also updating
`old_date`) if and only if the timestamp's date differs from `old_date` —
the date recorded at the last increment inside the current file, initially
empty — not from the tracked date. -/
theorem timestamp_line_update (acc : ReadAcc) (line : Line) (mo d y : String)
    (hs : line.startRes = none) (hev : line.eventRes = none)
    (hts : line.tsRes = some (mo, d, y)) :
    (read_line acc line).date = format_date mo d y
      ∧ ((read_line acc line).nb_days = acc.nb_days + 1
          ↔ format_date mo d y ≠ acc.old_date)
      ∧ (format_date mo d y ≠ acc.old_date →
          read_line acc line
            = { acc with
                date := format_date mo d y,
                nb_days := acc.nb_days + 1,
                old_date := format_date mo d y })
      ∧ (format_date mo d y = acc.old_date →
          read_line acc line = { acc with date := format_date mo d y }) := by
  have hb : boot_line acc line = acc := boot_line_none hs
  by_cases hc : format_date mo d y = acc.old_date
  · have he := read_line_ts_old hev hts (by rw [hb]; exact hc)
    rw [hb] at he
    rw [he]
    refine ⟨rfl, ?_, fun hcn => absurd hc hcn, fun _ => rfl⟩
    simp [hc]
  · have he := read_line_ts_new hev hts (by rw [hb]; exact hc)
    rw [hb] at he
    rw [he]
    exact ⟨rfl, by simp [hc], fun _ => rfl, fun hce => absurd hce hc⟩

/-- Claim C5, witness: a timestamp line carrying a new date always
reassigns the tracked date and bumps the day counter. -/
theorem timestamp_line_update_witness :
    (read_line ⟨[], 0, true, "2012/1/22", "2012/1/22"⟩
        ⟨none, none, some ("1", "23", "2012")⟩).date
      = format_date "1" "23" "2012"
      ∧ read_line ⟨[], 0, true, "2012/1/22", "2012/1/22"⟩
          ⟨none, none, some ("1", "23", "2012")⟩
        = ⟨[], 0 + 1, true, format_date "1" "23" "2012",
            format_date "1" "23" "2012"⟩ := by
  have h := timestamp_line_update ⟨[], 0, true, "2012/1/22", "2012/1/22"⟩
    ⟨none, none, some ("1", "23", "2012")⟩ "1" "23" "2012" rfl rfl rfl
  exact ⟨h.1, by simpa using h.2.2.1 (by decide)⟩

/-- Claim C4, counterexample: three accepted checkouts of feature `f` on
the date sequence `D1, D2, D1` make `nb_days` reach `3` — the date `D1` is
counted twice — while only `2` distinct dates carry an accepted checkout.
`daysUsed` is neither the number of distinct checkout dates nor
incremented at most once per distinct date. -/
theorem nb_days_counts_date_changes_not_distinct_dates :
    ((do_some_stats
        [⟨"D1", "t1", "OUT", "f", "u1", "m"⟩,
         ⟨"D2", "t2", "OUT", "f", "u2", "m"⟩,
         ⟨"D1", "t3", "OUT", "f", "u3", "m"⟩]).stats "f").nb_days = 3
      ∧ distinctOutDates "f"
          (accepted_events
            [⟨"D1", "t1", "OUT", "f", "u1", "m"⟩,
             ⟨"D2", "t2", "OUT", "f", "u2", "m"⟩,
             ⟨"D1", "t3", "OUT", "f", "u3", "m"⟩]) = 2 := by
  refine ⟨by decide, by decide⟩

/-- Claim C4 (corrected): for every deduplicated event stream and feature,
`nb_days` equals the number of date changes along the feature's accepted
checkouts: a new day is counted exactly when an accepted checkout's date
differs from the date of the previous accepted checkout of that feature
(the first one counting when its date differs from the sentinel
`XXXXXXX`).  It equals the number of distinct checkout dates only when
equal dates are contiguous in that subsequence. -/
theorem nb_days_eq_chainCount (evs : List Event) (m : String) :
    ((do_some_stats evs).stats m).nb_days
      = chainCount "XXXXXXX" (outDates m (accepted_events evs)) := by
  rw [do_some_stats, do_some_stats_loop_fusion]
  obtain ⟨h1, _⟩ := foldl_stats_days (accepted_from [] evs) init_stats_core m
  rw [accepted_events, h1]
  simp [init_stats_core, init_module_stats]

lemma countOuts_append (m : String) (l1 l2 : List Event) :
    countOuts m (l1 ++ l2) = countOuts m l1 + countOuts m l2 := by
  simp [countOuts, outsFor, List.filter_append]

/-- Claim C7 (confirmed): `total_use` of a feature equals the number of
checkout events of that feature that passed deduplication, and it is
monotonically non-decreasing along the fold (its value after any prefix is
at most its final value). -/
theorem total_use_eq_accepted_outs (evs p q : List Event) (m : String)
    (hpq : evs = p ++ q) :
    ((do_some_stats evs).stats m).total_use
        = countOuts m (accepted_events evs)
      ∧ ((do_some_stats p).stats m).total_use
        ≤ ((do_some_stats evs).stats m).total_use := by
  subst hpq
  have hsplit : do_some_stats (p ++ q)
      = do_some_stats_loop (do_some_stats p) (dedup_after [] p) q := by
    rw [do_some_stats, do_some_stats_loop_append, do_some_stats]
  have hp : ((do_some_stats p).stats m).total_use
      = countOuts m (accepted_from [] p) := by
    rw [do_some_stats, do_some_stats_loop_fusion, foldl_stats_total_use]
    simp [init_stats_core, init_module_stats]
  have hq : ((do_some_stats (p ++ q)).stats m).total_use
      = ((do_some_stats p).stats m).total_use
        + countOuts m (accepted_from (dedup_after [] p) q) := by
    rw [hsplit, do_some_stats_loop_fusion, foldl_stats_total_use]
  constructor
  · rw [hq, hp, accepted_events, accepted_from_append, countOuts_append]
  · rw [hq]
    have := countOuts_nonneg m (accepted_from (dedup_after [] p) q)
    omega

/-- Claim C7, witness. -/
theorem total_use_eq_accepted_outs_witness :
    ((do_some_stats ([⟨"d", "t", "OUT", "f", "u", "m"⟩]
          ++ [⟨"d", "t2", "OUT", "f", "v", "m"⟩])).stats "f").total_use
        = countOuts "f" (accepted_events ([⟨"d", "t", "OUT", "f", "u", "m"⟩]
            ++ [⟨"d", "t2", "OUT", "f", "v", "m"⟩]))
      ∧ ((do_some_stats [⟨"d", "t", "OUT", "f", "u", "m"⟩]).stats "f").total_use
        ≤ ((do_some_stats ([⟨"d", "t", "OUT", "f", "u", "m"⟩]
            ++ [⟨"d", "t2", "OUT", "f", "v", "m"⟩])).stats "f").total_use :=
  total_use_eq_accepted_outs
    ([⟨"d", "t", "OUT", "f", "u", "m"⟩] ++ [⟨"d", "t2", "OUT", "f", "v", "m"⟩])
    [⟨"d", "t", "OUT", "f", "u", "m"⟩] [⟨"d", "t2", "OUT", "f", "v", "m"⟩]
    "f" rfl

/-- Claim C6, counterexample to its final-concurrency part: with the
cross-feature key collision of the C1 counterexample, the feature
`x:u@a` has one accepted checkin and no accepted checkout, so accepted
checkouts minus accepted checkins is `-1`, yet its only time-series entry
carries concurrency `0` (the checkin-first initialisation floors at 0). -/
theorem final_concurrency_breaks_on_collision :
    currentUse ((do_gnuplot_stats
        [⟨"d1", "t1", "OUT", "x", "u", "a:v@b"⟩,
         ⟨"d1", "t2", "IN", "x:u@a", "v", "b"⟩]).stats "x:u@a") = 0
      ∧ countOuts "x:u@a" (accepted_events
            [⟨"d1", "t1", "OUT", "x", "u", "a:v@b"⟩,
             ⟨"d1", "t2", "IN", "x:u@a", "v", "b"⟩])
          - countIns "x:u@a" (accepted_events
            [⟨"d1", "t1", "OUT", "x", "u", "a:v@b"⟩,
             ⟨"d1", "t2", "IN", "x:u@a", "v", "b"⟩])
        = -1 := by
  refine ⟨by decide, by decide⟩

/-- Claim C6 (corrected): the per-feature time series written to the data
file (the built list is reversed before printing) carries exactly the
(date, time) stamps of the feature's accepted events in input order — so
it is non-decreasing whenever the input stamps are, which the `Pairwise`
transfer conjunct expresses for any order relation — and, on a stream
whose dedup keys do not collide across features, the concurrency of the
final (most recent) entry equals the number of accepted checkouts minus
the number of accepted checkins of that feature. -/
theorem time_series_order_and_final (evs : List Event) (m : String) :
    ((do_gnuplot_stats evs).stats m).reverse.map entryPair
        = (eventsFor m (accepted_events evs)).map evPair
      ∧ (∀ r : String × String → String × String → Prop,
          ((eventsFor m (accepted_events evs)).map evPair).Pairwise r →
            (((do_gnuplot_stats evs).stats m).reverse.map entryPair).Pairwise r)
      ∧ (key_consistent evs →
          currentUse ((do_gnuplot_stats evs).stats m)
            = countOuts m (accepted_events evs)
              - countIns m (accepted_events evs)) := by
  have hser : ((do_gnuplot_stats evs).stats m).map entryPair
      = ((eventsFor m (accepted_events evs)).map evPair).reverse := by
    rw [do_gnuplot_stats, do_gnuplot_loop_fusion, foldl_gnuplot_series]
    simp [init_gnuplot_core, accepted_events]
  have horder : ((do_gnuplot_stats evs).stats m).reverse.map entryPair
      = (eventsFor m (accepted_events evs)).map evPair := by
    rw [List.map_reverse, hser, List.reverse_reverse]
  refine ⟨horder, fun r hr => horder ▸ hr, fun hcons => ?_⟩
  obtain ⟨_, _, k3, _⟩ :=
    loops_inv evs [] init_stats_core init_gnuplot_core
      (fun e1 _ p1 hp1 => absurd hp1 (List.not_mem_nil p1))
      hcons
      List.nodup_nil
      (fun m' => rfl)
      (fun m' => rfl)
      m
  simp only [List.map_nil] at k3
  rw [do_gnuplot_stats, accepted_events, k3]
  simp [init_gnuplot_core, currentUse]

/-- Claim C6, witness. -/
theorem time_series_order_and_final_witness :
    currentUse ((do_gnuplot_stats
        [⟨"d", "t", "OUT", "f", "u", "m"⟩,
         ⟨"d", "t2", "IN", "f", "u", "m"⟩]).stats "f")
      = countOuts "f" (accepted_events
          [⟨"d", "t", "OUT", "f", "u", "m"⟩,
           ⟨"d", "t2", "IN", "f", "u", "m"⟩])
        - countIns "f" (accepted_events
          [⟨"d", "t", "OUT", "f", "u", "m"⟩,
           ⟨"d", "t2", "IN", "f", "u", "m"⟩]) :=
  (time_series_order_and_final
    [⟨"d", "t", "OUT", "f", "u", "m"⟩, ⟨"d", "t2", "IN", "f", "u", "m"⟩]
    "f").2.2 (by decide)

/-- Claim C8 (confirmed): `init_use_upon_state` returns `1` when the state
lowercases to `out` and `0` otherwise (the dead `elif` comparing the
uncalled method object never fires, and `use` starts at `0`, so a
checkin-first feature starts at `0`, never negative), and the time-series
fold initialises a feature whose event list is empty with exactly that
value. -/
theorem init_use_spec (s : String) (g : GnuplotCore) (e : Event)
    (hempty : g.stats e.module = []) :
    init_use_upon_state s = (if py_lower s = "out" then 1 else 0)
      ∧ (gnuplot_update g e).stats e.module
        = [(e.date, e.time, init_use_upon_state e.state)] := by
  constructor
  · by_cases h : py_lower s = "out" <;> simp [init_use_upon_state, h]
  · rw [gnuplot_update_stats_eq, hempty]
    rfl

/-- Claim C8, witness. -/
theorem init_use_spec_witness :
    init_use_upon_state "IN" = (if py_lower "IN" = "out" then 1 else 0)
      ∧ (gnuplot_update init_gnuplot_core
            ⟨"d", "t", "IN", "f", "u", "m"⟩).stats
          (Event.module ⟨"d", "t", "IN", "f", "u", "m"⟩)
        = [("d", "t", init_use_upon_state
            (Event.state ⟨"d", "t", "IN", "f", "u", "m"⟩))] :=
  init_use_spec "IN" init_gnuplot_core ⟨"d", "t", "IN", "f", "u", "m"⟩ rfl

/-- Claim C9 (confirmed): `main` dispatches to no output at all when at
most one event was parsed, and in gnuplot mode additionally dispatches to
no output when the day count is not positive; both are plain skips of the
dispatch function, not error paths. -/
theorem main_dispatch_skips (out : String) (nb_days : Int)
    (result_list : List Event) :
    (result_list.length ≤ 1 →
        main_dispatch out nb_days result_list = MainAction.doNothing)
      ∧ (nb_days ≤ 0 →
          main_dispatch "gnuplot" nb_days result_list
            = MainAction.doNothing) := by
  constructor
  · intro h
    rw [main_dispatch, if_neg (by omega)]
  · intro h
    by_cases hl : result_list.length > 1
    · rw [main_dispatch, if_pos hl, if_neg (by decide),
        if_neg (fun hc => by omega)]
    · rw [main_dispatch, if_neg hl]

/-- Claim C9, witness: a one-event run in stats mode and a two-event
zero-day run in gnuplot mode both dispatch to nothing. -/
theorem main_dispatch_skips_witness :
    main_dispatch "stat" 5 [⟨"d", "t", "OUT", "f", "u", "m"⟩]
        = MainAction.doNothing
      ∧ main_dispatch "gnuplot" 0 [⟨"d", "t", "OUT", "f", "u", "m"⟩,
          ⟨"d", "t2", "IN", "f", "u", "m"⟩] = MainAction.doNothing :=
  ⟨(main_dispatch_skips "stat" 5
      [⟨"d", "t", "OUT", "f", "u", "m"⟩]).1 (by decide),
    (main_dispatch_skips "gnuplot" 0 [⟨"d", "t", "OUT", "f", "u", "m"⟩,
      ⟨"d", "t2", "IN", "f", "u", "m"⟩]).2 (by decide)⟩

/-- Claim C10 (confirmed): an event whose state lowercases to neither
`out` nor `in` is never dropped by the deduplicator and leaves the dedup
set unchanged; the stats fold leaves `nb_users`, `total_use` and `nb_days`
of every feature unchanged; the time-series fold still prepends a snapshot
entry for the event's feature whose concurrency equals the previous one
(`0` for a first event). -/
theorem other_state_kept_but_neutral (e : Event)
    (h1 : py_lower e.state ≠ "out") (h2 : py_lower e.state ≠ "in") :
    (∀ d : List String,
        deduplicate d e.state e.module e.user e.machine = (false, d))
      ∧ (∀ (c : StatsCore) (m : String),
          ((stats_update c e).stats m).nb_users = (c.stats m).nb_users
            ∧ ((stats_update c e).stats m).total_use = (c.stats m).total_use
            ∧ ((stats_update c e).stats m).nb_days = (c.stats m).nb_days)
      ∧ (∀ g : GnuplotCore,
          (gnuplot_update g e).stats e.module
            = (e.date, e.time, currentUse (g.stats e.module))
                :: g.stats e.module) := by
  refine ⟨fun d => dedup_other _ _ _ d h1 h2, fun c m => ?_, fun g => ?_⟩
  · by_cases hm : m = e.module
    · subst hm
      exact ⟨stats_update_nb_users_other h1 h2,
        stats_update_total_use_not_out h1,
        (stats_update_days_not_out h1).1⟩
    · rw [stats_update_stats_ne hm]
      exact ⟨rfl, rfl, rfl⟩
  · rw [gnuplot_update_stats_eq]
    cases hl : g.stats e.module with
    | nil => simp [next_use, currentUse, init_use_upon_state, h1]
    | cons p t =>
      obtain ⟨a, b, u⟩ := p
      simp [next_use, currentUse, update_use_value_upon_state, h1, h2]

/-- Claim C10, witness: a `DENIED` event passes the deduplicator
untouched, leaves the three counters of its feature at their initial
values, and prepends a zero-concurrency snapshot. -/
theorem other_state_kept_but_neutral_witness :
    deduplicate ["k"] "DENIED" "f" "u" "m" = (false, ["k"])
      ∧ ((stats_update init_stats_core
            ⟨"d", "t", "DENIED", "f", "u", "m"⟩).stats "f").nb_users
          = (init_stats_core.stats "f").nb_users
      ∧ ((stats_update init_stats_core
            ⟨"d", "t", "DENIED", "f", "u", "m"⟩).stats "f").total_use
          = (init_stats_core.stats "f").total_use
      ∧ ((stats_update init_stats_core
            ⟨"d", "t", "DENIED", "f", "u", "m"⟩).stats "f").nb_days
          = (init_stats_core.stats "f").nb_days
      ∧ (gnuplot_update init_gnuplot_core
            ⟨"d", "t", "DENIED", "f", "u", "m"⟩).stats "f"
          = ("d", "t", currentUse (init_gnuplot_core.stats "f"))
              :: init_gnuplot_core.stats "f" := by
  have h := other_state_kept_but_neutral ⟨"d", "t", "DENIED", "f", "u", "m"⟩
    (by decide) (by decide)
  obtain ⟨hdedup, hstats, hgnu⟩ := h
  obtain ⟨hu, ht, hdy⟩ := hstats init_stats_core "f"
  exact ⟨hdedup ["k"], hu, ht, hdy, hgnu init_gnuplot_core⟩
